import Mathlib

/-!
Verification development for the genefab assay metadata engine
(`genefab/_assay.py`, `genefab/_util.py`).

The Python source is shallowly embedded: pandas DataFrames become lists,
Python `set`s become deduplicated lists, raised exceptions become
`Except.error`, and `re.search` / `re.fullmatch` with `IGNORECASE` are
embedded for patterns without regex metacharacters (search = case-insensitive
substring occurrence, fullmatch = case-insensitive equality); glob masks
(`*` turned into `.*`) are embedded as ordered-substring matching of the
literal segments between the stars.
-/

/-- Errors raised by the embedded code.  They mirror the exception classes and
messages of the source: `GeneLabJSONException`, `GeneLabFileException`,
`IndexError`, `KeyError`, and the `TypeError` produced by calling
`set.union` with no arguments. -/
inductive GeneLabError where
  | conflictingFieldIds
  | nonexistentTitle (t : String)
  | ambiguousTitle (t : String)
  | badIndexBy (t : String)
  | multipleFileUrls
  | noSuitableFile
  | multipleFiles
  | unionOfEmptyCollection
  | keyError (k : String)
  | storageNotDirectory
  | targetNameIsDirectory
  | httpStatus (code : Nat)
  | byteCountMismatch
deriving DecidableEq, Repr

/-- Lower-case a character list (used to embed `re.IGNORECASE`). -/
def lowerChars (l : List Char) : List Char := l.map Char.toLower

/-- Lower-case a string, character by character. -/
def lowerStr (s : String) : String := ⟨lowerChars s.data⟩

/-- Scan `hay` for the first occurrence of `needle` and return the remaining
suffix after that occurrence, or `none` when `needle` never occurs. -/
def findAfterSub (needle : List Char) : List Char → Option (List Char)
  | [] => if needle.isPrefixOf [] then some [] else none
  | c :: t =>
    if needle.isPrefixOf (c :: t) then some ((c :: t).drop needle.length)
    else findAfterSub needle t

/-- Embeds `re.search(pattern, s, flags=IGNORECASE)` for a pattern without
regex metacharacters: case-insensitive substring occurrence. -/
def searchCI (pattern s : String) : Bool :=
  (findAfterSub (lowerChars pattern.data) (lowerChars s.data)).isSome

/-- Embeds `re.fullmatch(pattern, s, flags=IGNORECASE)` for a pattern without
regex metacharacters: case-insensitive string equality. -/
def fullmatchCI (pattern s : String) : Bool :=
  lowerChars pattern.data == lowerChars s.data

/-- Distinct titles of a header, in the order of the source dict built from
`{e["field"]: e["title"] for e in header}` (embeds the key set of
`self._fields`).  A header entry is a `(field id, title)` pair. -/
def titlesOf (hdr : List (String × String)) : List String :=
  (hdr.map Prod.snd).dedup

/-- Field ids mapped to one title (embeds `self._fields[title]`, a set). -/
def fieldsFor (hdr : List (String × String)) (title : String) : List String :=
  ((hdr.filter (fun e => e.2 == title)).map Prod.fst).dedup

/-- Embedded `Assay` state: the raw header, the queryable `_fields` mapping
(title to field-id set), `_indexed_by`, `_field_indexed_by`, and the index of
`raw_metadata` (the list of sample names). -/
structure AssayE where
  hdr : List (String × String)
  fields : List (String × List String)
  indexedBy : Option String
  fieldIndexedBy : Option String
  index : List String
deriving DecidableEq, Repr

/-- Key set of the embedded `_fields` dictionary. -/
def fieldKeys (a : AssayE) : List String := a.fields.map Prod.fst

/-- Title pool of `Assay._match_field_titles`: `set(self._fields)` united with
`{self._indexed_by}` when `_indexed_by` is truthy (a `None` value or an empty
string is falsy in Python, leaving the pool as the `_fields` keys alone). -/
def matchPool (a : AssayE) : List String :=
  match a.indexedBy with
  | some t => if t = "" then fieldKeys a else (fieldKeys a ++ [t]).dedup
  | none => fieldKeys a

/-- Embeds `Assay._match_field_titles(pattern, method=m)`: the titles of the
pool that the matching method accepts. -/
def matchFieldTitles (a : AssayE) (m : String → String → Bool) (pattern : String) :
    List String :=
  (matchPool a).filter (fun t => m pattern t)

/-- Embeds the dictionary lookup `self._fields[title]` (empty when absent). -/
def fieldsLookup (a : AssayE) (t : String) : List String :=
  ((a.fields.find? (fun e => e.1 == t)).map Prod.snd).getD []

/-- Embeds `Assay._get_unique_field_from_title`: match titles with the default
method `re.search`; zero matches raise `IndexError("Nonexistent ...")`, more
than one raises `IndexError("Ambiguous ...")`; the unique title's field-id set
(or the singleton `{_field_indexed_by}` when the title is the index title)
must in turn have exactly one element, which is returned. -/
def getUniqueFieldFromTitle (a : AssayE) (title : String) : Except GeneLabError String :=
  match matchFieldTitles a searchCI title with
  | [] => .error (.nonexistentTitle title)
  | [t] =>
    let flds : List String :=
      if a.indexedBy = some t then (a.fieldIndexedBy.map (fun f => [f])).getD []
      else fieldsLookup a t
    match flds with
    | [] => .error (.nonexistentTitle title)
    | [f] => .ok f
    | _ => .error (.ambiguousTitle title)
  | _ => .error (.ambiguousTitle title)

/-- The transient `Assay` state inside `__init__` right after `self._fields`
is frozen, before any index is assigned (`_indexed_by` and `_field_indexed_by`
are still `None`, the class-level defaults). -/
def preAssay (hdr : List (String × String)) : AssayE :=
  { hdr := hdr
    fields := (titlesOf hdr).map (fun t => (t, fieldsFor hdr t))
    indexedBy := none
    fieldIndexedBy := none
    index := [] }

/-- Character class of the index rewrite `sub(r'[._-]', name_delim, f)`. -/
def classChars : List Char := ['.', '_', '-']

/-- Embeds `sub(r'[._-]', delim, s)`: every character among `.`, `_`, `-` is
replaced by the replacement string `delim`. -/
def subNameDelim (delim : String) (s : String) : String :=
  ⟨s.data.flatMap (fun c => if classChars.contains c then delim.data else [c])⟩

/-- Embeds the conditional index rewrite of `Assay.__init__`
(`if name_delim != DELIM_AS_IS: ... index.map(lambda f: sub(r'[._-]', name_delim, f))`).
The sentinel `DELIM_AS_IS` is defined outside the provided sources, so the
"leave as-is" case is modelled as `Option.none` and an actual delimiter as
`Option.some`. -/
def rewriteIndex (nameDelim : Option String) (index : List String) : List String :=
  match nameDelim with
  | none => index
  | some d => index.map (subNameDelim d)

/-- Embeds the cell lookup of a raw metadata row at one field id. -/
def rowCell (r : List (String × String)) (fld : String) : String :=
  ((r.find? (fun e => e.1 == fld)).map Prod.snd).getD ""

/-- The fully constructed `Assay` value: `_fields` with the index title
deleted (`del self._fields[self._indexed_by]`), `_indexed_by` and
`_field_indexed_by` assigned, and the `raw_metadata` index extracted from the
index field and rewritten by the delimiter rule. -/
def mkAssay (hdr : List (String × String)) (rawRows : List (List (String × String)))
    (nameDelim : Option String) (fIdx ti : String) : AssayE :=
  { hdr := hdr
    fields := ((titlesOf hdr).filter (fun t => t ≠ ti)).map (fun t => (t, fieldsFor hdr t))
    indexedBy := some ti
    fieldIndexedBy := some fIdx
    index := rewriteIndex nameDelim (rawRows.map (fun r => rowCell r fIdx)) }

/-- Embeds the field-registry and indexing part of `Assay.__init__`:
duplicate field ids are a fatal `GeneLabJSONException`; the index field id is
resolved through `_get_unique_field_from_title(index_by)`; `index_by` must
fullmatch exactly one title (else `IndexError`); the metadata index is set
from the resolved field and optionally delimiter-rewritten; finally the index
title is deleted from `_fields`. -/
def buildAssay (hdr : List (String × String)) (rawRows : List (List (String × String)))
    (indexBy : String) (nameDelim : Option String) : Except GeneLabError AssayE :=
  if (hdr.map Prod.fst).dedup.length ≠ hdr.length then .error .conflictingFieldIds
  else
    match getUniqueFieldFromTitle (preAssay hdr) indexBy with
    | .error e => .error e
    | .ok fIdx =>
      match matchFieldTitles (preAssay hdr) fullmatchCI indexBy with
      | [ti] => .ok (mkAssay hdr rawRows nameDelim fIdx ti)
      | _ => .error (.badIndexBy indexBy)

/-- Embeds row selection of `AssayMetadataLocator.__getitem__` when called
with a collection of index regexes (and likewise the row half of the
`.loc[x, y]` branch): `set.union(*({ix for ix in index if fullmatch(p, ix,
IGNORECASE)} for p in patterns))` followed by `.loc` on the matched labels.
With an empty pattern collection the starred `set.union()` call receives no
arguments at all and raises `TypeError`; the guarded variant
`set.union(set(), ...)` appears only in `AssayMetadata.__getitem__`. -/
def locatorSelectRows (a : AssayE) (indexPatterns : List String) :
    Except GeneLabError (List String) :=
  match indexPatterns with
  | [] => .error .unionOfEmptyCollection
  | _ => .ok (a.index.filter (fun ix => indexPatterns.any (fun p => fullmatchCI p ix)))

/-- Whitespace characters of the regex class `\s`. -/
def isSpaceCh (c : Char) : Bool :=
  c = ' ' || c = '\t' || c = '\n' || c = '\r' || c = Char.ofNat 11 || c = Char.ofNat 12

/-- Drop leading whitespace of a character list. -/
def trimLeftCh (l : List Char) : List Char := l.dropWhile isSpaceCh

/-- Drop trailing whitespace of a character list. -/
def trimRightCh (l : List Char) : List Char := (l.reverse.dropWhile isSpaceCh).reverse

/-- Split a character list on one separator character, keeping empty pieces
(the behaviour of `str.split` / `re.split` on each single separator). -/
def splitOnChar (c : Char) : List Char → List (List Char)
  | [] => [[]]
  | x :: t =>
    let r := splitOnChar c t
    if x = c then [] :: r
    else
      match r with
      | h :: rs => (x :: h) :: rs
      | [] => [[x]]

/-- Tail of `splitCommaWS`: middle pieces lose whitespace on both sides, the
last piece only loses its leading whitespace. -/
def splitCommaWSTail : List (List Char) → List String
  | [] => []
  | [y] => [⟨trimLeftCh y⟩]
  | y :: t => ⟨trimLeftCh (trimRightCh y)⟩ :: splitCommaWSTail t

/-- Embeds `re.split(r'\s*,\s*', s)`: split on commas, consuming the
whitespace adjacent to each comma (leading whitespace of the first piece and
trailing whitespace of the last piece are kept). -/
def splitCommaWS (s : String) : List String :=
  match splitOnChar ',' s.data with
  | [] => []
  | [x] => [⟨x⟩]
  | x :: rest => ⟨trimRightCh x⟩ :: splitCommaWSTail rest

/-- Embeds the blacklist regex `\.rda(ta)?(\.gz)?$` of the data loaders
(case-sensitive, as `re.search` is called without flags there): a filename is
blacklisted exactly when it ends in `.rda`, `.rdata`, `.rda.gz` or
`.rdata.gz`. -/
def blacklistRda (fn : String) : Bool :=
  ".rda".data.isSuffixOf fn.data || ".rdata".data.isSuffixOf fn.data ||
    ".rda.gz".data.isSuffixOf fn.data || ".rdata.gz".data.isSuffixOf fn.data

/-- Candidate filenames of `Assay._read_data_from`: the union over all
selected metadata cells of their comma-split pieces (a set, hence
deduplicated), with the names matching the blacklist removed. -/
def targetFilenames (cells : List String) (blacklist : String → Bool) : List String :=
  ((cells.flatMap splitCommaWS).dedup).filter (fun fn => !blacklist fn)

/-- Embeds `Assay._read_data_from` up to the point where the unique data file
is handed to `fetch_file`/`read_csv`.  The input `metaFiles` is the metadata
selection `self.metadata[[field_title]]` as a list of rows of cell values:
an empty selection (`len(meta_files) == 0`) returns `None` (no data); with a
non-empty selection, zero candidate filenames after the blacklist raise the
"No suitable ..." `GeneLabFileException`, several candidates raise the
"Multiple ..." one, and a unique candidate is the file that gets fetched and
parsed (returned here as `some` of its name).  A non-empty selection with no
cells at all would star-expand `set.union` over nothing, a `TypeError`. -/
def readDataFrom (metaFiles : List (List String)) (blacklist : String → Bool) :
    Except GeneLabError (Option String) :=
  if metaFiles.length ≠ 0 then
    match metaFiles.flatten with
    | [] => .error .unionOfEmptyCollection
    | _ :: _ =>
      match targetFilenames metaFiles.flatten blacklist with
      | [] => .error .noSuitableFile
      | [fn] => .ok (some fn)
      | _ => .error .multipleFiles
  else .ok none

/-- Segments of `filemask.split("/")[0].replace("*", ".*")`: the literal
pieces of the first path segment, delimited by the `*` wildcards. -/
def maskRegexSegs (filemask : String) : List (List Char) :=
  splitOnChar '*' ((splitOnChar '/' filemask.data).headD [])

/-- Ordered occurrence of literal segments, embedding `re.search` of the
pattern `seg0.*seg1.*...*segN` (matching the leftmost occurrence of each
segment in turn). -/
def segsSearch : List (List Char) → List Char → Bool
  | [], _ => true
  | s :: rest, hay =>
    match findAfterSub s hay with
    | none => false
    | some hay' => segsSearch rest hay'

/-- Embeds `search(regex_filemask, filename)` of `Assay._get_file_url` for a
glob mask whose literal parts contain no further regex metacharacters. -/
def globSearch (filemask fn : String) : Bool :=
  segsSearch (maskRegexSegs filemask) fn.data

/-- The set `matching_names` of `Assay._get_file_url`: the known filenames of
the `glds_file_urls` dictionary on which the mask regex searches. -/
def urlMatchingNames (gldsFileUrls : List (String × String)) (filemask : String) :
    List String :=
  ((gldsFileUrls.map Prod.fst).dedup).filter (fun fn => globSearch filemask fn)

/-- Embeds `Assay._get_file_url`: the known filenames matching the mask are
collected; zero matches return `None`, several raise
`GeneLabJSONException("Multiple file URLs match name")`, and a unique match
returns its URL from the `glds_file_urls` dictionary. -/
def getFileUrl (gldsFileUrls : List (String × String)) (filemask : String) :
    Except GeneLabError (Option String) :=
  match urlMatchingNames gldsFileUrls filemask with
  | [] => .ok none
  | [fn] => .ok ((gldsFileUrls.find? (fun e => e.1 == fn)).map Prod.snd)
  | _ => .error .multipleFileUrls

/-- Kind of a filesystem entry, for the checks at the top of `fetch_file`. -/
inductive FsEntry where
  | absent
  | file
  | directory
deriving DecidableEq, Repr

/-- Outcome of a successful `fetch_file` call. -/
inductive FetchResult where
  | reused
  | downloaded
deriving DecidableEq, Repr

/-- An HTTP response as `fetch_file` sees it: a status code, the optional
`content-length` header, and the body bytes streamed in. -/
structure HttpResponse where
  statusCode : Nat
  contentLength : Option Nat
  body : List Nat
deriving DecidableEq, Repr

/-- Embeds `fetch_file` (`genefab/_util.py`): directory checks, reuse of an
existing file when `update` is false, the 200 check, then the streamed write;
`total_bytes` is `int(stream.headers.get("content-length", 0))`, and when it
differs from the written byte count the fully written file is removed and
`URLError("Failed to download the correct number of bytes")` is raised.  The
result is paired with the state of the target file after the call (the
`ftp://` to `http://` fallback retry is folded into the single response). -/
def fetchFile (dirEntry fileEntry : FsEntry) (update : Bool) (resp : HttpResponse) :
    Except GeneLabError FetchResult × FsEntry :=
  if dirEntry = .file then (.error .storageNotDirectory, fileEntry)
  else if update = false ∧ fileEntry = .directory then (.error .targetNameIsDirectory, fileEntry)
  else if update = false ∧ fileEntry = .file then (.ok .reused, fileEntry)
  else if resp.statusCode ≠ 200 then (.error (.httpStatus resp.statusCode), fileEntry)
  else
    let totalBytes := resp.contentLength.getD 0
    let writtenBytes := resp.body.length
    if totalBytes ≠ writtenBytes then (.error .byteCountMismatch, .absent)
    else (.ok .downloaded, .file)

/-- Embeds `Assay.get_normalized_data` / `Assay.get_processed_data` at the
caching level: the pipeline `_read_data_from` result (an optional parsed
table) is stored in the cache field and returned; the pair is
`(returned value, new cache field)`. -/
def getDataE {α : Type} (pipeline : Option α) : Option α × Option α :=
  (pipeline, pipeline)

/-- Embeds the plain properties `Assay.normalized_data` /
`Assay.processed_data`: an empty cache delegates to the fetch call (running
the locate/fetch/parse pipeline), a filled cache is returned as is.  The
triple is `(returned value, new cache field, pipeline ran)`. -/
def dataProperty {α : Type} (pipeline : Option α) (cache : Option α) :
    Option α × Option α × Bool :=
  match cache with
  | none => ((getDataE pipeline).1, (getDataE pipeline).2, true)
  | some t => (some t, some t, false)

/-- Iterate `n` plain property accesses from a cache state, collecting the
returned values, the final cache and whether any access ran the pipeline. -/
def repeatAccess {α : Type} (pipeline : Option α) (cache : Option α) :
    Nat → List (Option α) × Option α × Bool
  | 0 => ([], cache, false)
  | n + 1 =>
    let s := dataProperty pipeline cache
    let r := repeatAccess pipeline s.2.1 n
    (s.1 :: r.1, r.2.1, s.2.2 || r.2.2)

/-- A summary-dataframe cell: the `name` and `factors` columns hold strings,
the characteristic and protocol columns hold booleans. -/
inductive Cell where
  | str (s : String)
  | bool (b : Bool)
deriving DecidableEq, Repr

/-- The module constant `ASSAY_CHARACTERISTICS` of `genefab/_assay.py`. -/
def ASSAY_CHARACTERISTICS : List String :=
  ["normalized annotated data file",
   "differential expression analysis data transformation",
   "normalized counts data file"]

/-- The module constant `ASSAY_PROTOCOL_LIST` of `genefab/_assay.py`. -/
def ASSAY_PROTOCOL_LIST : List String :=
  ["genelab microarray data processing protocol",
   "genelab rnaseq data processing protocol"]

/-- What `AssayDispatcher._summary_dataframe` reads from one assay: the title
pool of `_match_field_titles`, the cell values of the `Protocol REF` column,
and the columns of `assay.factors()` (titles like `Factor Value:  condition`,
computed upstream from the sample annotation). -/
structure AssayInfo where
  fieldTitles : List String
  protocolRef : List String
  factorColumnTitles : List String
deriving DecidableEq, Repr

/-- Embeds `sub('^factor value:\s+', "", f, flags=IGNORECASE)`: strip a
leading case-insensitive `factor value:` followed by at least one whitespace
character (the `\s+` consumes the whole whitespace run). -/
def stripFactorTag (f : String) : String :=
  let cs := f.data
  if lowerChars (cs.take 13) = "factor value:".data then
    match cs.drop 13 with
    | [] => ⟨cs⟩
    | c :: t => if isSpaceCh c then ⟨trimLeftCh (c :: t)⟩ else ⟨cs⟩
  else ⟨cs⟩

/-- Rows of `AssayDispatcher._summary_dataframe`: one row per assay and
factor, holding the assay name, the factor, one boolean per characteristic
title (`len(assay._match_field_titles(c)) > 0`, default `re.search` matching)
and one per processing protocol (membership in the lower-cased
`Protocol REF` value set). -/
def summaryRowsOf (d : List (String × AssayInfo)) : List (List Cell) :=
  d.flatMap (fun na =>
    let protocolSet := (na.2.protocolRef.map lowerStr).dedup
    let factors := (na.2.factorColumnTitles.map stripFactorTag).dedup
    factors.map (fun f =>
      [Cell.str na.1, Cell.str f]
        ++ ASSAY_CHARACTERISTICS.map
          (fun c => Cell.bool (na.2.fieldTitles.any (fun t => searchCI c t)))
        ++ ASSAY_PROTOCOL_LIST.map (fun p => Cell.bool (protocolSet.contains p))))

/-- Column labels of `AssayDispatcher._summary_dataframe`:
`["name", "factors"] + ASSAY_CHARACTERISTICS + ASSAY_PROTOCOL_LIST`. -/
def summaryColumns : List String :=
  ["name", "factors"] ++ ASSAY_CHARACTERISTICS ++ ASSAY_PROTOCOL_LIST

/-- The summary dataframe: its column labels and its rows (the row index is
the default `RangeIndex`, i.e. the integer positions `0, 1, 2, ...`). -/
structure SummaryDF where
  columns : List String
  rows : List (List Cell)
deriving DecidableEq, Repr

/-- Embeds `AssayDispatcher._summary_dataframe`. -/
def summaryDataFrame (d : List (String × AssayInfo)) : SummaryDF :=
  { columns := summaryColumns, rows := summaryRowsOf d }

/-- Embeds the pandas column access `df[label]`: a missing column label
raises `KeyError(label)`. -/
def dfColumn (df : SummaryDF) (c : String) : Except GeneLabError (List Cell) :=
  match df.columns.findIdx? (fun x => x == c) with
  | none => .error (.keyError c)
  | some i => .ok (df.rows.map (fun r => r.getD i (Cell.str "")))

/-- Python `cell != 2` for a summary cell: a string never equals an int, and
a boolean compares as the integer 0 or 1 (so the comparison is always true on
these cells, the "always true" subsetter seed of `choose`). -/
def cellNeTwo (c : Cell) : Bool :=
  match c with
  | .str _ => true
  | .bool b => (if b then (1 : Nat) else 0) ≠ 2

/-- Python `cell == x` for a string `x`. -/
def cellEqStr (c : Cell) (x : String) : Bool :=
  match c with
  | .str t => t == x
  | .bool _ => false

/-- Python `cell == b` for a boolean `b`. -/
def cellEqBool (c : Cell) (b : Bool) : Bool :=
  match c with
  | .str _ => false
  | .bool b2 => b2 == b

/-- Pointwise conjunction of two aligned boolean columns (pandas `&`). -/
def andCols (xs ys : List Bool) : List Bool := List.zipWith and xs ys

/-- Python `name in chosen_names` where `name` is a string key of the assay
dictionary and `chosen_names` holds the integer labels of the summary
dataframe's `RangeIndex`: an `int` never equals a `str`, so the test is
false. -/
def strInNatSet (_ : String) (_ : List Nat) : Bool := false

/-- Embeds `AssayDispatcher.choose`: the summary dataframe is computed, the
subsetter starts from `rd["has_arrays"] != 2` and is intersected with the
optional `factors` / `has_arrays` / `has_normalized_data` /
`has_processed_data` predicates; the subsetted dataframe's index labels
become `chosen_names`, and every key of a deep copy of the dispatcher that is
not among them is deleted.  The result is paired with the original dispatcher
after the call (the deletions touch only the deep copy).  Since
`_summary_dataframe` has no `has_arrays` column, the very first column access
raises `KeyError("has_arrays")`. -/
def chooseE (d : List (String × AssayInfo)) (factors : Option String)
    (hasArrays hasNormalizedData hasProcessedData : Option Bool) :
    Except GeneLabError (List (String × AssayInfo)) × List (String × AssayInfo) :=
  let rd := summaryDataFrame d
  match dfColumn rd "has_arrays" with
  | .error e => (.error e, d)
  | .ok haCol =>
    let sub0 := haCol.map cellNeTwo
    let step1 : Except GeneLabError (List Bool) :=
      match factors with
      | none => .ok sub0
      | some x =>
        match dfColumn rd "factors" with
        | .error e => .error e
        | .ok col => .ok (andCols sub0 (col.map (fun c => cellEqStr c x)))
    match step1 with
    | .error e => (.error e, d)
    | .ok sub1 =>
      let step2 : Except GeneLabError (List Bool) :=
        match hasArrays with
        | none => .ok sub1
        | some b =>
          match dfColumn rd "has_arrays" with
          | .error e => .error e
          | .ok col => .ok (andCols sub1 (col.map (fun c => cellEqBool c b)))
      match step2 with
      | .error e => (.error e, d)
      | .ok sub2 =>
        let step3 : Except GeneLabError (List Bool) :=
          match hasNormalizedData with
          | none => .ok sub2
          | some b =>
            match dfColumn rd "has_normalized_data" with
            | .error e => .error e
            | .ok col => .ok (andCols sub2 (col.map (fun c => cellEqBool c b)))
        match step3 with
        | .error e => (.error e, d)
        | .ok sub3 =>
          let step4 : Except GeneLabError (List Bool) :=
            match hasProcessedData with
            | none => .ok sub3
            | some b =>
              match dfColumn rd "has_processed_data" with
              | .error e => .error e
              | .ok col => .ok (andCols sub3 (col.map (fun c => cellEqBool c b)))
          match step4 with
          | .error e => (.error e, d)
          | .ok sub4 =>
            let chosenNames := (List.range rd.rows.length).filter (fun i => sub4.getD i false)
            (.ok (d.filter (fun na => strInNatSet na.1 chosenNames)), d)

/-- Spec-side description of the index rewrite for delimiter `"_"` (the claim
under test): the input names with `.` and `-` replaced by `_`.  This is kept
separate from `subNameDelim`, which is translated from the source, so the two
can be compared. -/
def specReplaceDotDash (s : String) : String :=
  ⟨s.data.map (fun c => if c = '.' ∨ c = '-' then '_' else c)⟩

/-- Concrete constructed assay used by the closed statements below: two
fields, indexed by `Sample Name`, two samples. -/
def demoAssay : AssayE :=
  { hdr := [("a100", "Sample Name"), ("a101", "Treatment")]
    fields := [("Treatment", ["a101"])]
    indexedBy := some "Sample Name"
    fieldIndexedBy := some "a100"
    index := ["sample_1", "sample_2"] }

/-- Concrete assay state with two titles `x` and `xy`, one field id each:
the pattern `x` exact-matches only the title `x` but search-matches both. -/
def overlapAssay : AssayE :=
  { hdr := [("f1", "x"), ("f2", "xy")]
    fields := [("x", ["f1"]), ("xy", ["f2"])]
    indexedBy := none
    fieldIndexedBy := none
    index := [] }

/-- Concrete one-assay dispatcher with a factor, for the `choose` claims. -/
def demoDispatcher : List (String × AssayInfo) :=
  [("a_demo_assay",
    { fieldTitles := ["Sample Name", "Factor Value:  spaceflight", "Protocol REF"]
      protocolRef := ["image acquisition"]
      factorColumnTitles := ["Factor Value:  spaceflight"] })]

/-- Concrete header for the construction witness. -/
def wHdr : List (String × String) :=
  [("f1", "Sample Name"), ("f2", "Factor Value:  condition")]

/-- The assay that `buildAssay wHdr [] "Sample Name" none` constructs. -/
def wAssay : AssayE :=
  { hdr := wHdr
    fields := [("Factor Value:  condition", ["f2"])]
    indexedBy := some "Sample Name"
    fieldIndexedBy := some "f1"
    index := [] }

/-- The end-to-end derived-data scenario of the spec: one metadata cell
joining a text file and a blacklisted `.rda.gz` archive with a comma. -/
def scenarioCells : List (List String) :=
  [["GLDS-1_out.txt, GLDS-1_out.rda.gz"]]

/-- The file-URL table of the spec's File Reference Resolver scenario. -/
def demoUrls : List (String × String) :=
  [("SRR123_1.fastq", "url1"), ("SRR123_2.fastq", "url2")]

/-- With replacement string `"_"`, the per-character substitution of the
class `[._-]` agrees with "replace `.` and `-` by `_`" (an `_` is matched by
the class but replaced by itself). -/
theorem subChar_underscore (c : Char) :
    (if classChars.contains c then "_".data else [c]) =
      [if c = '.' ∨ c = '-' then '_' else c] := by
  by_cases h1 : c = '.'
  · subst h1; simp [classChars]
  · by_cases h2 : c = '-'
    · subst h2; simp [classChars]
    · by_cases h3 : c = '_'
      · subst h3; simp [classChars]
      · simp [classChars, h1, h2, h3]

/-- Stringwise form of `subChar_underscore`. -/
theorem subNameDelim_underscore (s : String) :
    subNameDelim "_" s = specReplaceDotDash s := by
  have h : ∀ cs : List Char,
      cs.flatMap (fun c => if classChars.contains c then "_".data else [c]) =
        cs.map (fun c => if c = '.' ∨ c = '-' then '_' else c) := by
    intro cs
    induction cs with
    | nil => rfl
    | cons c t ih =>
      rw [List.flatMap_cons, ih, subChar_underscore, List.map_cons,
        List.singleton_append]
  unfold subNameDelim specReplaceDotDash
  exact congrArg String.mk (h s.data)

/-- The spec-side replacement is idempotent character by character. -/
theorem specReplaceDotDash_idem (s : String) :
    specReplaceDotDash (specReplaceDotDash s) = specReplaceDotDash s := by
  unfold specReplaceDotDash
  cases s with
  | mk data =>
    simp only [List.map_map]
    refine congrArg String.mk (List.map_congr_left ?_)
    intro c _
    by_cases h1 : c = '.' <;> by_cases h2 : c = '-' <;>
      simp [Function.comp, h1, h2]

/-- C6: building the metadata table with name delimiter `"_"` rewrites every
index value by substituting the class `[._-]` with `"_"`, so the resulting
index equals the input names with `.` and `-` replaced by `_`; the rewrite is
idempotent. -/
theorem index_rewrite_underscore (names : List String) :
    rewriteIndex (some "_") names = names.map specReplaceDotDash ∧
    rewriteIndex (some "_") (rewriteIndex (some "_") names) =
      rewriteIndex (some "_") names := by
  constructor
  · simp [rewriteIndex, subNameDelim_underscore]
  · simp [rewriteIndex, List.map_map, subNameDelim_underscore, Function.comp,
      specReplaceDotDash_idem]

/-- C1: `AssayDispatcher.choose` never returns a filtered collection: for
every dispatcher and every combination of filter arguments it raises
`KeyError("has_arrays")`, because `_summary_dataframe` has no `has_arrays`
column (its columns are name, factors, the characteristic titles and the
protocol titles). -/
theorem choose_always_raises_keyerror (d : List (String × AssayInfo))
    (factors : Option String) (hasArrays hasNormalizedData hasProcessedData : Option Bool) :
    (chooseE d factors hasArrays hasNormalizedData hasProcessedData).1 =
      .error (.keyError "has_arrays") := rfl

/-- C2 counterexample: on a concrete one-assay collection,
`choose(factors=...)` does not return a collection at all (it raises
`KeyError("has_arrays")`), so in particular it does not return a new
collection holding the same `Assay` objects. -/
theorem choose_demo_returns_no_collection :
    (chooseE demoDispatcher (some "spaceflight") none none none).1 =
      .error (.keyError "has_arrays") := rfl

/-- C2 amended: `choose` leaves the original collection unchanged (the
copy-then-delete loop touches only the deep copy), but it never returns a
filtered collection: every call fails with `KeyError("has_arrays")`. -/
theorem choose_nondestructive_but_never_returns (d : List (String × AssayInfo))
    (factors : Option String) (hasArrays hasNormalizedData hasProcessedData : Option Bool) :
    (chooseE d factors hasArrays hasNormalizedData hasProcessedData).2 = d ∧
    (chooseE d factors hasArrays hasNormalizedData hasProcessedData).1 =
      .error (.keyError "has_arrays") := ⟨rfl, rfl⟩

/-- C3: on a non-empty metadata table, row selection through the metadata
locator with index patterns that match nothing returns an empty table, but
with an empty pattern collection the un-guarded `set.union(*())` call raises
`TypeError` instead of returning an empty table. -/
theorem locator_empty_pattern_union_raises :
    demoAssay.index ≠ [] ∧
    locatorSelectRows demoAssay ["nomatch"] = .ok [] ∧
    locatorSelectRows demoAssay [] = .error .unionOfEmptyCollection :=
  ⟨by decide, rfl, rfl⟩

/-- C4 counterexample: on `overlapAssay` the pattern `x` exact-matches
exactly one title (`x`), whose title carries exactly one field id (`f1`), so
the claim predicts that `f1` is returned; the code instead fails with the
Ambiguous `IndexError`, because `_get_unique_field_from_title` matches with
the default `re.search` (partial matching) and both `x` and `xy` contain
`x`. -/
theorem unique_field_exact_match_counterexample :
    matchFieldTitles overlapAssay fullmatchCI "x" = ["x"] ∧
    fieldsLookup overlapAssay "x" = ["f1"] ∧
    getUniqueFieldFromTitle overlapAssay "x" = .error (.ambiguousTitle "x") :=
  ⟨rfl, rfl, rfl⟩

/-- C4 amended: unique field resolution matches titles case-insensitively in
search (partial) mode, not exact mode: it fails Ambiguous when more than one
title search-matches, NotFound when zero do, and otherwise, after resolving
the single search-matched title, fails NotFound/Ambiguous unless exactly one
underlying field id exists (the index title resolving to the single
`_field_indexed_by`), in which case that field id is returned. -/
theorem unique_field_search_resolution (a : AssayE) (pattern : String) :
    (matchFieldTitles a searchCI pattern = [] →
      getUniqueFieldFromTitle a pattern = .error (.nonexistentTitle pattern)) ∧
    (2 ≤ (matchFieldTitles a searchCI pattern).length →
      getUniqueFieldFromTitle a pattern = .error (.ambiguousTitle pattern)) ∧
    (∀ t, matchFieldTitles a searchCI pattern = [t] →
      (a.indexedBy ≠ some t → fieldsLookup a t = [] →
        getUniqueFieldFromTitle a pattern = .error (.nonexistentTitle pattern)) ∧
      (a.indexedBy ≠ some t → ∀ f, fieldsLookup a t = [f] →
        getUniqueFieldFromTitle a pattern = .ok f) ∧
      (a.indexedBy ≠ some t → 2 ≤ (fieldsLookup a t).length →
        getUniqueFieldFromTitle a pattern = .error (.ambiguousTitle pattern)) ∧
      (∀ fi, a.indexedBy = some t → a.fieldIndexedBy = some fi →
        getUniqueFieldFromTitle a pattern = .ok fi)) := by
  refine ⟨?_, ?_, ?_⟩
  · intro h
    simp [getUniqueFieldFromTitle, h]
  · intro h
    rcases hm : matchFieldTitles a searchCI pattern with _ | ⟨t, _ | ⟨u, r⟩⟩
    · rw [hm] at h; simp at h
    · rw [hm] at h; simp only [List.length_cons, List.length_nil] at h; omega
    · simp [getUniqueFieldFromTitle, hm]
  · intro t ht
    refine ⟨?_, ?_, ?_, ?_⟩
    · intro hne hf
      simp [getUniqueFieldFromTitle, ht, hne, hf]
    · intro hne f hf
      simp [getUniqueFieldFromTitle, ht, hne, hf]
    · intro hne hlen
      rcases hf : fieldsLookup a t with _ | ⟨f, _ | ⟨g, r⟩⟩
      · rw [hf] at hlen; simp at hlen
      · rw [hf] at hlen; simp only [List.length_cons, List.length_nil] at hlen; omega
      · simp [getUniqueFieldFromTitle, ht, hne, hf]
    · intro fi hidx hfld
      simp [getUniqueFieldFromTitle, ht, hidx, hfld]

/-- C4 witness: on the demo assay the pattern `treat` search-matches the one
title `Treatment` with the one field id `a101`, which is returned. -/
theorem unique_field_search_resolution_witness :
    getUniqueFieldFromTitle demoAssay "treat" = .ok "a101" :=
  ((unique_field_search_resolution demoAssay "treat").2.2 "Treatment" rfl).2.1
    (by decide) "a101" rfl

/-- C5: in `_read_data_from`, an empty metadata selection yields the
non-error outcome `None`; with a non-empty selection the comma-split,
blacklist-filtered candidate set decides the outcome: zero candidates raise
the NoSuitableFile error, more than one raises the AmbiguousFile error, and
exactly one makes that single file the one fetched and parsed. -/
theorem read_data_candidate_uniqueness (metaFiles : List (List String))
    (blacklist : String → Bool) :
    (metaFiles.length = 0 → readDataFrom metaFiles blacklist = .ok none) ∧
    (metaFiles.flatten ≠ [] →
      (targetFilenames metaFiles.flatten blacklist = [] →
        readDataFrom metaFiles blacklist = .error .noSuitableFile) ∧
      (∀ fn, targetFilenames metaFiles.flatten blacklist = [fn] →
        readDataFrom metaFiles blacklist = .ok (some fn)) ∧
      (2 ≤ (targetFilenames metaFiles.flatten blacklist).length →
        readDataFrom metaFiles blacklist = .error .multipleFiles)) := by
  constructor
  · intro h
    have h0 : metaFiles = [] := List.length_eq_zero.mp h
    subst h0; rfl
  · intro hfl
    have hne : ¬ metaFiles.length = 0 := by
      intro h0
      exact hfl (by simp [List.length_eq_zero.mp h0])
    rcases h2 : metaFiles.flatten with _ | ⟨c, cs⟩
    · exact absurd h2 hfl
    · refine ⟨?_, ?_, ?_⟩
      · intro ht; simp [readDataFrom, hne, h2, ht]
      · intro fn ht; simp [readDataFrom, hne, h2, ht]
      · intro hlen
        rcases ht : targetFilenames (c :: cs) blacklist with _ | ⟨f, _ | ⟨g, r⟩⟩
        · rw [ht] at hlen; simp at hlen
        · rw [ht] at hlen; simp only [List.length_cons, List.length_nil] at hlen; omega
        · simp [readDataFrom, hne, h2, ht]

/-- C5 witness: the spec's end-to-end scenario: the cell
`GLDS-1_out.txt, GLDS-1_out.rda.gz` with the `.rda` blacklist leaves exactly
one candidate, `GLDS-1_out.txt`, which is fetched. -/
theorem read_data_candidate_uniqueness_witness :
    readDataFrom scenarioCells blacklistRda = .ok (some "GLDS-1_out.txt") :=
  ((read_data_candidate_uniqueness scenarioCells blacklistRda).2 (by decide)).2.1
    "GLDS-1_out.txt" rfl

/-- C7: file URL resolution returns `None` when zero known filenames match
the mask (first path segment, `*` turned into `.*`, searched partially),
raises the Ambiguous `GeneLabJSONException` when more than one matches, and
returns the mapped URL when exactly one matches. -/
theorem file_url_resolution (gldsFileUrls : List (String × String)) (filemask : String) :
    (urlMatchingNames gldsFileUrls filemask = [] →
      getFileUrl gldsFileUrls filemask = .ok none) ∧
    (2 ≤ (urlMatchingNames gldsFileUrls filemask).length →
      getFileUrl gldsFileUrls filemask = .error .multipleFileUrls) ∧
    (∀ fn url, urlMatchingNames gldsFileUrls filemask = [fn] →
      gldsFileUrls.find? (fun e => e.1 == fn) = some (fn, url) →
      getFileUrl gldsFileUrls filemask = .ok (some url)) := by
  refine ⟨?_, ?_, ?_⟩
  · intro h
    simp [getFileUrl, h]
  · intro h
    rcases hm : urlMatchingNames gldsFileUrls filemask with _ | ⟨f, _ | ⟨g, r⟩⟩
    · rw [hm] at h; simp at h
    · rw [hm] at h; simp only [List.length_cons, List.length_nil] at h; omega
    · simp [getFileUrl, hm]
  · intro fn url hm hf
    simp [getFileUrl, hm, hf]

/-- C7 witness: the spec's File Reference Resolver scenario: mask
`*SRR999_*` matches nothing and resolves to `None`, mask `*SRR123_*` matches
both files and raises Ambiguous, and mask `*SRR123_1*` matches exactly one
file and returns its URL. -/
theorem file_url_resolution_witness :
    getFileUrl demoUrls "*SRR999_*" = .ok none ∧
    getFileUrl demoUrls "*SRR123_*" = .error .multipleFileUrls ∧
    getFileUrl demoUrls "*SRR123_1*" = .ok (some "url1") :=
  ⟨(file_url_resolution demoUrls "*SRR999_*").1 rfl,
   (file_url_resolution demoUrls "*SRR123_*").2.1 (by decide),
   (file_url_resolution demoUrls "*SRR123_1*").2.2 "SRR123_1.fastq" "url1" rfl rfl⟩

/-- C8: once a fetch has completed and stored a table in the cache field,
every subsequent plain property access returns that cached table, changes
nothing, and never re-runs the locate/fetch/parse pipeline (whatever the
pipeline would now return); the cache field is replaced exactly by what an
explicit fetch call's pipeline produces. -/
theorem data_cache_stable {α : Type} (p : Option α) (t : α)
    (h : (getDataE p).2 = some t) :
    (∀ (q : Option α) (n : Nat),
      repeatAccess q (getDataE p).2 n = (List.replicate n (some t), some t, false)) ∧
    (∀ q : Option α, (getDataE q).2 = q) := by
  constructor
  · intro q n
    rw [h]
    induction n with
    | zero => rfl
    | succ k ih => simp [repeatAccess, dataProperty, ih, List.replicate_succ]
  · intro q; rfl

/-- C8 witness: after a fetch whose pipeline produced the table `5`, two
plain accesses both return `5`, leave the cache at `5`, and run no
pipeline. -/
theorem data_cache_stable_witness :
    repeatAccess none (getDataE (some (5 : Nat))).2 2 =
      (List.replicate 2 (some 5), some 5, false) :=
  (data_cache_stable (some 5) 5 rfl).1 none 2

/-- C10: when the HTTP response carries no content-length header (so the
expected size defaults to 0 bytes) but a non-empty body, `fetch_file` removes
the fully written local file and raises the byte-count `URLError`, even
though the body was streamed to completion: success is equality of written
bytes with the header-declared count. -/
theorem fetch_header_byte_count_required (dirEntry fileEntry : FsEntry)
    (update : Bool) (resp : HttpResponse) (hdir : dirEntry ≠ .file)
    (hfile : update = true ∨ fileEntry = .absent)
    (hstatus : resp.statusCode = 200) (hlen : resp.contentLength = none)
    (hbody : resp.body ≠ []) :
    fetchFile dirEntry fileEntry update resp = (.error .byteCountMismatch, .absent) := by
  have h1 : ¬(update = false ∧ fileEntry = FsEntry.directory) := by
    rcases hfile with h | h <;> simp [h]
  have h2 : ¬(update = false ∧ fileEntry = FsEntry.file) := by
    rcases hfile with h | h <;> simp [h]
  have h3 : (0 : Nat) ≠ resp.body.length := by
    intro h0
    exact hbody (List.length_eq_zero.mp h0.symm)
  simp [fetchFile, hdir, h1, h2, hstatus, hlen, h3]

/-- C10 witness: a 200 response with no content-length header and a 3-byte
body makes `fetch_file` delete the written file and fail. -/
theorem fetch_header_byte_count_required_witness :
    fetchFile .directory .absent false
      { statusCode := 200, contentLength := none, body := [7, 7, 7] } =
      (.error .byteCountMismatch, .absent) :=
  fetch_header_byte_count_required .directory .absent false
    { statusCode := 200, contentLength := none, body := [7, 7, 7] }
    (by decide) (Or.inr rfl) rfl rfl (by decide)

/-- The key set of a constructed assay is the title list without the index
title (the effect of `del self._fields[self._indexed_by]`). -/
theorem fieldKeys_mkAssay (hdr : List (String × String))
    (rawRows : List (List (String × String))) (nameDelim : Option String)
    (fIdx ti : String) :
    fieldKeys (mkAssay hdr rawRows nameDelim fIdx ti) =
      (titlesOf hdr).filter (fun t => t ≠ ti) := by
  simp [mkAssay, fieldKeys]
  rw [show (Prod.fst ∘ fun t : String => (t, fieldsFor hdr t)) = id from rfl, List.map_id]

/-- C9: every successfully constructed assay carries its index title outside
the queryable `_fields` key set, yet (as long as the index title is non-empty,
hence truthy) the `_match_field_titles` pool still contains it, so the
invariant holds for every subsequent query. -/
theorem index_title_removed_but_matchable (hdr : List (String × String))
    (rawRows : List (List (String × String))) (indexBy : String)
    (nameDelim : Option String) (a : AssayE)
    (h : buildAssay hdr rawRows indexBy nameDelim = .ok a) :
    ∃ ti, a.indexedBy = some ti ∧ ti ∉ fieldKeys a ∧ (ti ≠ "" → ti ∈ matchPool a) := by
  unfold buildAssay at h
  split at h
  · exact absurd h (by simp)
  · split at h
    · exact absurd h (by simp)
    · split at h
      · rename_i fIdx heq ti hm
        rw [Except.ok.injEq] at h
        subst h
        refine ⟨ti, rfl, ?_, ?_⟩
        · rw [fieldKeys_mkAssay]
          intro hmem
          have := (List.mem_filter.mp hmem).2
          simp at this
        · intro hne
          simp [matchPool, mkAssay, hne, List.mem_dedup]
      · exact absurd h (by simp)

/-- C9 witness: the concrete header `wHdr` indexed by `Sample Name` builds
`wAssay`, whose index title is absent from the `_fields` keys but present in
the match pool. -/
theorem index_title_removed_but_matchable_witness :
    ∃ ti, wAssay.indexedBy = some ti ∧ ti ∉ fieldKeys wAssay ∧
      (ti ≠ "" → ti ∈ matchPool wAssay) :=
  index_title_removed_but_matchable wHdr [] "Sample Name" none wAssay rfl
